import Mathlib

/-!
Verification of the Task-Analyser scoring core
(`Backend/tasks/scoring.py`, `Backend/tasks/views.py`).

The Python code works on `dict`-shaped task records holding dynamically
typed values.  We embed the dynamic value universe as the inductive type
`Val` (None, bool, int, float, str, date, list); floats are modelled as
rationals (IEEE specials inf/nan are outside the model), and calendar
dates as their integer day ordinals so that `d2 - d1` is the day
difference.  Operations that can raise a Python exception are embedded in
`Except String`; the error string names the Python exception.  The
ambient `date.today()` is passed explicitly as an integer `today`.
-/

/-- The dynamic (Python) value universe used for task-record fields. -/
inductive Val where
  | none : Val
  | bool (b : Bool) : Val
  | int (n : ℤ) : Val
  | float (q : ℚ) : Val
  | str (s : String) : Val
  | date (d : ℤ) : Val
  | list (xs : List Val) : Val

/-- Python truthiness (`bool(x)`): None/0/""/[] are falsy. -/
def Val.truthy : Val → Bool
  | Val.none => false
  | Val.bool b => b
  | Val.int n => n != 0
  | Val.float q => q != 0
  | Val.str s => s != ""
  | Val.date _ => true
  | Val.list xs => !xs.isEmpty

/-- Numeric view used by Python arithmetic and comparisons:
`bool` counts as 0/1, `int` and `float` as their value. -/
def Val.toNum? : Val → Option ℚ
  | Val.bool b => some (if b then 1 else 0)
  | Val.int n => some (n : ℚ)
  | Val.float q => some q
  | _ => Option.none

/-- structural part of Python `==` for the non-numeric cases -/
def pyEqAux : Val → Val → Bool
  | Val.none, Val.none => true
  | Val.str s, Val.str t => s == t
  | Val.date d, Val.date e => d == e
  | Val.list xs, Val.list ys => pyEqListAux xs ys
  | _, _ => false
where
  /-- elementwise `==` on Python lists (each element compared with the
  full numeric-aware equality) -/
  pyEqListAux : List Val → List Val → Bool
  | [], [] => true
  | x :: xs, y :: ys =>
    (match x.toNum?, y.toNum? with
     | some a, some b => decide (a = b)
     | _, _ => pyEqAux x y) && pyEqListAux xs ys
  | _, _ => false

/-- Python `==` (value equality: `0 == 0.0 == False`; mixed
number/non-number comparisons are `False`, never an error). -/
def pyEq (a b : Val) : Bool :=
  match a.toNum?, b.toNum? with
  | some x, some y => decide (x = y)
  | _, _ => pyEqAux a b

/-- Python whitespace test for `str.strip` (ASCII fragment; the extra
unicode spaces Python also strips are outside the model). -/
def pyStrip (s : String) : String :=
  ⟨((s.data.dropWhile Char.isWhitespace).reverse.dropWhile
      Char.isWhitespace).reverse⟩

/-- digit list to natural number, for the numeric-string parsers -/
def digitsToNat (cs : List Char) : ℕ :=
  cs.foldl (fun a c => a * 10 + (c.toNat - 48)) 0

/-- Models `float(s)` on the common decimal forms `[+-]ddd[.ddd]`
(exponent notation and the IEEE specials are outside the model;
anything else is a `ValueError`, i.e. `Option.none`). -/
def parseUnsignedFloat? (cs : List Char) : Option ℚ :=
  let intPart := cs.takeWhile Char.isDigit
  let rest := cs.dropWhile Char.isDigit
  match rest with
  | [] => if intPart.isEmpty then Option.none else some (digitsToNat intPart : ℚ)
  | '.' :: frac =>
    if frac.all Char.isDigit && !(intPart.isEmpty && frac.isEmpty) then
      some ((digitsToNat intPart : ℚ) + (digitsToNat frac : ℚ) / 10 ^ frac.length)
    else Option.none
  | _ => Option.none

/-- Models `float(s)`: strips whitespace, then an optional sign. -/
def parseFloat? (s : String) : Option ℚ :=
  match (pyStrip s).data with
  | '-' :: rest => (parseUnsignedFloat? rest).map Neg.neg
  | '+' :: rest => parseUnsignedFloat? rest
  | cs => parseUnsignedFloat? cs

/-- Models `int(s)`: strips whitespace, optional sign, digits only
(`int("3.5")` is a `ValueError`). -/
def parseInt? (s : String) : Option ℤ :=
  match (pyStrip s).data with
  | '-' :: rest =>
    if !rest.isEmpty && rest.all Char.isDigit then some (-(digitsToNat rest : ℤ))
    else Option.none
  | '+' :: rest =>
    if !rest.isEmpty && rest.all Char.isDigit then some (digitsToNat rest : ℤ)
    else Option.none
  | cs =>
    if !cs.isEmpty && cs.all Char.isDigit then some (digitsToNat cs : ℤ)
    else Option.none

/-- Truncation toward zero, as Python `int(float)` does. -/
def ratTrunc (q : ℚ) : ℤ := if 0 ≤ q then ⌊q⌋ else -⌊-q⌋

/-- Models `str(x)`.  Strings map to themselves and integers render as in
Python; the renderings of the remaining constructors are stand-ins for
`repr`-level output (only their truthiness/trim behaviour is relied on). -/
def Val.toStr : Val → String
  | Val.none => "None"
  | Val.bool b => if b then "True" else "False"
  | Val.int n => toString n
  | Val.float q => if q.den = 1 then toString q.num ++ ".0" else toString q
  | Val.str s => s
  | Val.date d => "datetime.date(" ++ toString d ++ ")"
  | Val.list xs => if xs.isEmpty then "[]" else "[...]"

instance : Repr Val := ⟨fun v _ => Std.Format.text v.toStr⟩

/-- Models `float(x)`: numbers and numeric strings convert, everything
else raises (`Option.none`). -/
def Val.toFloat? : Val → Option ℚ
  | Val.bool b => some (if b then 1 else 0)
  | Val.int n => some (n : ℚ)
  | Val.float q => some q
  | Val.str s => parseFloat? s
  | _ => Option.none

/-- Models `int(x)`: ints pass through, floats truncate toward zero,
bools become 0/1, integer-literal strings parse, everything else raises. -/
def Val.toInt? : Val → Option ℤ
  | Val.bool b => some (if b then 1 else 0)
  | Val.int n => some n
  | Val.float q => some (ratTrunc q)
  | Val.str s => parseInt? s
  | _ => Option.none

/-- Models `len(x)`: defined for lists and strings, raises otherwise. -/
def pyLen : Val → Option ℕ
  | Val.list xs => some xs.length
  | Val.str s => some s.length
  | _ => Option.none

/-- Models `for x in v`: lists iterate their elements, strings their
one-character substrings; other values raise. -/
def Val.iter? : Val → Option (List Val)
  | Val.list xs => some xs
  | Val.str s => some (s.data.map (fun c => Val.str (String.singleton c)))
  | _ => Option.none

/-- Python hashability (dict keys): lists are unhashable. -/
def Val.hashable : Val → Bool
  | Val.list _ => false
  | _ => true

/-- Python `round(x, 2)` modelled exactly on rationals (Python's
round-half-to-even on binary floats agrees off the rare ties). -/
def round2 (q : ℚ) : ℚ := (round (q * 100) : ℚ) / 100

/-- A task record: a Python dict from string keys to dynamic values
(association list, first occurrence of a key wins). -/
abbrev TaskRec := List (String × Val)

/-- `task[k]` lookup without default: `Option.none` models `KeyError`. -/
def tget? : TaskRec → String → Option Val
  | [], _ => Option.none
  | (k', v) :: rest, k => if k' = k then some v else tget? rest k

/-- `task.get(k, d)` -/
def tget (t : TaskRec) (k : String) (d : Val) : Val := (tget? t k).getD d

/-- `task.get(k)` (default `None`) -/
def tgetO (t : TaskRec) (k : String) : Val := tget t k Val.none

/-- `task[k] = v`: replace the first binding of `k`, else append. -/
def tset : TaskRec → String → Val → TaskRec
  | [], k, v => [(k, v)]
  | (k', v') :: rest, k, v =>
    if k' = k then (k, v) :: rest else (k', v') :: tset rest k v

/-!  `sanitize_task_data` (scoring.py lines 205-257), split into its five
numbered steps.  Step 1 replaces a falsy or blank-after-strip title (it
does not trim a kept title); step 2 nulls a non-date `due_date`; step 3
coerces hours to float, negative to the int 0, failure to the int 0;
step 4 coerces importance to int clamped to [1,10], failure to 5;
step 5 keeps only truthy entries with non-blank stripped string form. -/

/-- `not sanitized.get("title") or not str(sanitized.get("title")).strip()` -/
def titleBlank (t : TaskRec) : Bool :=
  !(tgetO t "title").truthy || pyStrip (tgetO t "title").toStr = ""

/-- `if not sanitized.get("title") or not str(sanitized.get("title")).strip()` -/
def sanTitle (t : TaskRec) : TaskRec :=
  if titleBlank t then tset t "title" (Val.str "Untitled Task") else t

/-- `if due_date is not None and not isinstance(due_date, date)` -/
def sanDue (t : TaskRec) : TaskRec :=
  match tgetO t "due_date" with
  | Val.none => t
  | Val.date _ => t
  | _ => tset t "due_date" Val.none

/-- `hours = float(hours); if hours < 0: hours = 0` (the reassignment
makes the stored value the int 0); `except: sanitized[...] = 0` -/
def sanHours (t : TaskRec) : TaskRec :=
  match (tget t "estimated_hours" (Val.int 0)).toFloat? with
  | some h => tset t "estimated_hours" (if h < 0 then Val.int 0 else Val.float h)
  | Option.none => tset t "estimated_hours" (Val.int 0)

/-- `importance = int(importance); importance = max(1, min(10, importance))`;
`except: sanitized[...] = 5` -/
def sanImportance (t : TaskRec) : TaskRec :=
  match (tget t "importance" (Val.int 5)).toInt? with
  | some i => tset t "importance" (Val.int (max 1 (min 10 i)))
  | Option.none => tset t "importance" (Val.int 5)

/-- `[str(d).strip() for d in deps if d and str(d).strip()]`;
non-list input becomes the empty list -/
def sanDeps (t : TaskRec) : TaskRec :=
  match tget t "dependencies" (Val.list []) with
  | Val.list ds =>
    tset t "dependencies" (Val.list
      ((ds.filter (fun d => d.truthy && pyStrip d.toStr != "")).map
        (fun d => Val.str (pyStrip d.toStr))))
  | _ => tset t "dependencies" (Val.list [])

/-- `sanitize_task_data(task)`: `sanitized = task.copy()` then the five
steps in order.  Total: every failure mode of the Python body is caught
inside it (IEEE inf/nan, which make `int()` overflow, are outside the
modelled value universe). -/
def sanitize_task_data (task : TaskRec) : TaskRec :=
  sanDeps (sanImportance (sanHours (sanDue (sanTitle task))))

/-!  Component scorers (scoring.py lines 123-198).  Each can raise a
`TypeError` on an unsanitized record, hence `Except`. -/

/-- `calculate_urgency_score` (lines 123-158); `today` is the day
ordinal of `date.today()`. -/
def calculate_urgency_score (today : ℤ) (task : TaskRec) : Except String ℚ :=
  match tgetO task "due_date" with
  | Val.none => pure 3
  | Val.date d =>
    let days_left : ℤ := d - today
    if days_left < 0 then
      let overdue_days := |days_left|
      if overdue_days ≥ 7 then pure 10
      else pure (min 10 (10 + (overdue_days : ℚ) * (1/10)))
    else if days_left = 0 then pure 10
    else if days_left = 1 then pure 9
    else if days_left ≤ 3 then pure 8
    else if days_left ≤ 7 then pure 6
    else if days_left ≤ 14 then pure 4
    else if days_left ≤ 30 then pure 2
    else pure 1
  | _ => Except.error "TypeError: unsupported operand type for -"

/-- `calculate_effort_score` (lines 161-179).  `hours == 0` is Python
value equality (never raises); the `<=` chain raises on non-numbers. -/
def calculate_effort_score (task : TaskRec) : Except String ℚ :=
  let hours := tget task "estimated_hours" (Val.int 0)
  if pyEq hours (Val.int 0) then pure 5
  else
    match hours.toNum? with
    | Option.none => Except.error "TypeError: unorderable types"
    | some h =>
      if h ≤ 1 then pure 10
      else if h ≤ 3 then pure 8
      else if h ≤ 6 then pure 6
      else if h ≤ 12 then pure 4
      else pure 2

/-- `calculate_dependency_score` (lines 182-198): `len(...)` raises on
unsized values. -/
def calculate_dependency_score (task : TaskRec) : Except String ℚ :=
  match pyLen (tget task "dependencies" (Val.list [])) with
  | Option.none => Except.error "TypeError: object has no len"
  | some dep_count =>
    if dep_count = 0 then pure 0
    else if dep_count = 1 then pure 3
    else if dep_count = 2 then pure 6
    else if dep_count = 3 then pure 8
    else pure 10

/-- the numeric coercion implicit in `importance_score * weight` -/
def asNum (v : Val) : Except String ℚ :=
  match v.toNum? with
  | some q => pure q
  | Option.none => Except.error "TypeError: unsupported operand type for *"

/-- `weights.get(k, default)` over an association-list weight mapping
(weight values are floats by the `Dict[str, float]` annotation). -/
def wget (w : List (String × ℚ)) (k : String) (d : ℚ) : ℚ :=
  ((w.find? (fun p => p.1 = k)).map (fun p => p.2)).getD d

/-- default weights of `calculate_smart_balance` (lines 40-46) -/
def defaultWeights : List (String × ℚ) :=
  [("urgency", 35/100), ("importance", 35/100),
   ("effort", 15/100), ("dependencies", 15/100)]

/-- `calculate_smart_balance` (lines 36-62) -/
def calculate_smart_balance (today : ℤ) (task : TaskRec)
    (custom_weights : Option (List (String × ℚ))) : Except String ℚ := do
  let weights := match custom_weights with
    | Option.none => defaultWeights
    | some w => w
  let urgency_score ← calculate_urgency_score today task
  let importance_score := tget task "importance" (Val.int 5)
  let effort_score ← calculate_effort_score task
  let dependency_score ← calculate_dependency_score task
  let imp ← asNum importance_score
  pure (round2 (
    urgency_score * wget weights "urgency" (35/100) +
    imp * wget weights "importance" (35/100) +
    effort_score * wget weights "effort" (15/100) +
    dependency_score * wget weights "dependencies" (15/100)))

/-- `calculate_fastest_wins` (lines 65-80) -/
def calculate_fastest_wins (today : ℤ) (task : TaskRec) : Except String ℚ := do
  let effort_score ← calculate_effort_score task
  let importance_score := tget task "importance" (Val.int 5)
  let urgency_score ← calculate_urgency_score today task
  let imp ← asNum importance_score
  pure (round2 (effort_score * (70/100) + imp * (20/100) +
    urgency_score * (10/100)))

/-- `calculate_high_impact` (lines 83-98) -/
def calculate_high_impact (today : ℤ) (task : TaskRec) : Except String ℚ := do
  let importance_score := tget task "importance" (Val.int 5)
  let dependency_score ← calculate_dependency_score task
  let urgency_score ← calculate_urgency_score today task
  let imp ← asNum importance_score
  pure (round2 (imp * (80/100) + dependency_score * (10/100) +
    urgency_score * (10/100)))

/-- `calculate_deadline_driven` (lines 101-116) -/
def calculate_deadline_driven (today : ℤ) (task : TaskRec) : Except String ℚ := do
  let urgency_score ← calculate_urgency_score today task
  let importance_score := tget task "importance" (Val.int 5)
  let effort_score ← calculate_effort_score task
  let imp ← asNum importance_score
  pure (round2 (urgency_score * (80/100) + imp * (15/100) +
    effort_score * (5/100)))

/-- `calculate_priority` (lines 8-33): sanitize, then route on the
strategy name, defaulting to smart_balance. -/
def calculate_priority (today : ℤ) (task : TaskRec) (strategy : String)
    (custom_weights : Option (List (String × ℚ))) : Except String ℚ :=
  let task := sanitize_task_data task
  if strategy = "fastest_wins" then calculate_fastest_wins today task
  else if strategy = "high_impact" then calculate_high_impact today task
  else if strategy = "deadline_driven" then calculate_deadline_driven today task
  else calculate_smart_balance today task custom_weights

/-- numeric coercion implicit in a Python `<=`-comparison chain -/
def asOrd (v : Val) : Except String ℚ :=
  match v.toNum? with
  | some q => pure q
  | Option.none => Except.error "TypeError: unorderable types"

/-!  `explain_choice` (scoring.py lines 337-420).  The multi-byte
characters in the string literals reproduce the source file's bytes
verbatim. -/

/-- `explain_choice(task, strategy)` -/
def explain_choice (today : ℤ) (task : TaskRec) (strategy : String) :
    Except String (List String) := do
  let due := tgetO task "due_date"
  let importance := tget task "importance" (Val.int 5)
  let hours := tget task "estimated_hours" (Val.int 0)
  let dep_count ← match pyLen (tget task "dependencies" (Val.list [])) with
    | some n => pure n
    | Option.none => Except.error "TypeError: object has no len"
  let pfx :=
    if strategy = "fastest_wins" then "‚ö° Quick Win Focus: "
    else if strategy = "high_impact" then "‚≠ê Impact Focus: "
    else if strategy = "deadline_driven" then "üìÖ Deadline Focus: "
    else ""
  let r1 ← match due with
    | Val.none => pure ["No deadline set ‚Äî lower urgency"]
    | Val.date d =>
      let days_left : ℤ := d - today
      if days_left < 0 then
        let od := |days_left|
        pure ["‚ö†Ô∏è OVERDUE by " ++ toString od ++ " day" ++
          (if od > 1 then "s" else "") ++ " ‚Äî needs immediate attention!"]
      else if days_left = 0 then pure ["üî• Due TODAY ‚Äî extremely urgent!"]
      else if days_left = 1 then pure ["‚è∞ Due TOMORROW ‚Äî very high urgency"]
      else if days_left ≤ 3 then
        pure ["üìÖ Due in " ++ toString days_left ++ " days ‚Äî high urgency"]
      else if days_left ≤ 7 then
        pure ["üìÜ Due in " ++ toString days_left ++ " days ‚Äî deadline approaching"]
      else if days_left ≤ 14 then
        pure ["Due in " ++ toString days_left ++ " days ‚Äî plan ahead"]
      else if days_left ≤ 30 then
        pure ["Due in " ++ toString days_left ++ " days ‚Äî moderate urgency"]
      else pure ["Due in " ++ toString days_left ++ " days ‚Äî low urgency"]
    | _ => Except.error "TypeError: unsupported operand type for -"
  let imp ← asOrd importance
  let r2 :=
    if imp ≥ 9 then [pfx ++ "‚≠ê CRITICAL importance (9-10/10)"]
    else if imp ≥ 7 then [pfx ++ "‚≠ê High importance (7-8/10)"]
    else if imp ≥ 5 then ["Medium importance (5-6/10)"]
    else if imp ≥ 3 then ["Low importance (3-4/10)"]
    else ["Very low importance (1-2/10)"]
  let r3 ←
    if pyEq hours (Val.int 0) then pure ["‚è±Ô∏è Effort not estimated"]
    else do
      let h ← asOrd hours
      if h ≤ 1 then pure [pfx ++ "‚ö° Quick win ‚Äî only 1 hour or less"]
      else if h ≤ 3 then pure [pfx ++ "‚ö° Short task ‚Äî 2-3 hours"]
      else if h ≤ 6 then pure ["üî® Medium task ‚Äî half day of work"]
      else if h ≤ 12 then pure ["üî® Large task ‚Äî 1-2 days of work"]
      else pure ["üèóÔ∏è Major project ‚Äî " ++ hours.toStr ++ " hours estimated"]
  let r4 :=
    if dep_count > 0 then
      ["üîó Blocking " ++ toString dep_count ++ " other task" ++
        (if dep_count > 1 then "s" else "") ++ " ‚Äî unblocks progress!"]
    else []
  let r5 ←
    if strategy = "fastest_wins" then do
      let h ← asOrd hours
      pure (if h ≤ 3 then ["üí® Prioritized for quick completion"] else [])
    else if strategy = "high_impact" then
      pure (if imp ≥ 8 then ["üéØ Prioritized for maximum impact"] else [])
    else if strategy = "deadline_driven" then
      match due with
      | Val.date d =>
        pure (if d - today ≤ 3 then
          ["‚è∞ Prioritized due to approaching deadline"] else [])
      | _ => pure []
    else pure []
  pure (r1 ++ r2 ++ r3 ++ r4 ++ r5)

/-!  `analyze_tasks` scoring-and-sorting pipeline (views.py lines
47-52), the spec's `score_tasks`.  Python's
`sorted(tasks, key=lambda t: t["score"], reverse=True)` is a stable
descending comparison sort; its output is fully determined by
(permutation, descending order, stability) and is realised here by a
stable descending insertion sort on the `"score"` field. -/

/-- the loop body: `task["score"] = calculate_priority(...)`,
`task["reasons"] = explain_choice(...)` -/
def scoreOne (today : ℤ) (strategy : String)
    (custom : Option (List (String × ℚ))) (task : TaskRec) :
    Except String TaskRec := do
  let sc ← calculate_priority today task strategy custom
  let task := tset task "score" (Val.float sc)
  let rs ← explain_choice today task strategy
  pure (tset task "reasons" (Val.list (rs.map Val.str)))

/-- the sort key `t["score"]` (always a float set by `scoreOne`) -/
def scoreKey (t : TaskRec) : ℚ := ((tgetO t "score").toNum?).getD 0

/-- stable descending insertion: a task goes in front of the first
strictly lower-scoring task, after any equal-scoring ones -/
def insertByScore (t : TaskRec) : List TaskRec → List TaskRec
  | [] => [t]
  | u :: us =>
    if scoreKey u ≤ scoreKey t then t :: u :: us else u :: insertByScore t us

/-- stable descending sort by `"score"` -/
def sortByScoreDesc : List TaskRec → List TaskRec
  | [] => []
  | t :: ts => insertByScore t (sortByScoreDesc ts)

/-- score every task, then sort descending by score (views.py 47-52) -/
def score_tasks (today : ℤ) (tasks : List TaskRec) (strategy : String)
    (custom : Option (List (String × ℚ))) : Except String (List TaskRec) := do
  let scored ← tasks.mapM (scoreOne today strategy custom)
  pure (sortByScoreDesc scored)

/-!  `detect_circular_dependencies` (scoring.py lines 264-330).
`task_map` is a Python dict keyed by title values, so key lookup uses
Python `==` and unhashable keys raise.  The recursive `dfs` is embedded
as a worklist function that is structurally recursive on a fuel
counter; one unit of fuel is spent per processed item, and
`detectFuel` overapproximates the number of items a run can process,
so the `RecursionError` branch is never reached on the fuel budget
actually passed (Python's own recursion is bounded by the path of
distinct titles).  `rec_stack` is threaded as an argument: each Python
`dfs` activation adds its title on entry and removes it on exit, which
is exactly call-time extension. -/

/-- an insertion-ordered dict keyed by Python values -/
abbrev TaskMap := List (Val × TaskRec)

/-- dict overwrite: Python keeps the first-inserted key object -/
def mapInsert : TaskMap → Val → TaskRec → TaskMap
  | [], k, t => [(k, t)]
  | (k', t') :: rest, k, t =>
    if pyEq k' k then (k', t) :: rest else (k', t') :: mapInsert rest k t

/-- `task_map.get(title)` -/
def mapGet? (m : TaskMap) (k : Val) : Option TaskRec :=
  (m.find? (fun p => pyEq p.1 k)).map (fun p => p.2)

/-- `title in task_map` -/
def mapMem (m : TaskMap) (k : Val) : Bool :=
  (m.find? (fun p => pyEq p.1 k)).isSome

/-- `task_map = {task["title"]: task for task in tasks}` (line 279):
raises `KeyError` on a record without a title and `TypeError` on an
unhashable title -/
def buildTaskMap (tasks : List TaskRec) : Except String TaskMap :=
  tasks.foldlM (fun m task =>
    match tget? task "title" with
    | Option.none => Except.error "KeyError: 'title'"
    | some k =>
      if k.hashable then pure (mapInsert m k task)
      else Except.error "TypeError: unhashable type") []

/-- `' ‚Üí '.join(cycle)` raises unless every element is a str -/
def allStrs? : List Val → Option (List String)
  | [] => some []
  | Val.str s :: rest => (allStrs? rest).map (fun ss => s :: ss)
  | _ => Option.none

/-- the f-string of lines 296-298 (bytes as in the source file) -/
def mkWarning (cycle : List Val) : Except String String :=
  match allStrs? cycle with
  | some ss =>
    pure ("‚ö†Ô∏è Circular dependency detected: " ++ String.intercalate " ‚Üí " ss)
  | Option.none => Except.error "TypeError: sequence item expected str instance"

/-- mutable state of `detect_circular_dependencies` -/
structure DetectSt where
  visited : List Val
  cycles : List (List Val)
  warnings : List String
deriving Repr

/-- worklist item: `node t` is a pending `dfs(t, path)` activation,
`dep d` a dependency still awaiting the `if dep in task_map` check -/
inductive WItem where
  | node (t : Val)
  | dep (d : Val)

/-- the body of `dfs` (lines 287-318) over a sibling worklist; all
items of one call share `recStack`/`path`, and expanding a node runs
its dependency list under `recStack ++ [t]`, `path ++ [t]` before the
remaining siblings continue at the original stack, which is Python's
add/recurse/remove discipline -/
def dfsRun (m : TaskMap) : ℕ → List WItem → List Val → List Val →
    DetectSt → Except String DetectSt
  | _, [], _, _, s => pure s
  | 0, _ :: _, _, _, _ => Except.error "RecursionError: model fuel exhausted"
  | fuel + 1, WItem.dep d :: rest, recStack, path, s =>
    if !d.hashable then Except.error "TypeError: unhashable type"
    else if mapMem m d then dfsRun m fuel (WItem.node d :: rest) recStack path s
    else dfsRun m fuel rest recStack path s
  | fuel + 1, WItem.node t :: rest, recStack, path, s =>
    if recStack.any (fun x => pyEq x t) then
      match path.findIdx? (fun x => pyEq x t) with
      | Option.none => Except.error "ValueError: x not in list"
      | some cycle_start => do
        let cycle := path.drop cycle_start ++ [t]
        let w ← mkWarning cycle
        dfsRun m fuel rest recStack path
          { s with cycles := s.cycles ++ [cycle],
                   warnings := s.warnings ++ [w] }
    else if s.visited.any (fun x => pyEq x t) then
      dfsRun m fuel rest recStack path s
    else do
      let s0 : DetectSt := { s with visited := s.visited ++ [t] }
      let s1 ← match mapGet? m t with
        | Option.none => pure s0
        | some task =>
          if task.isEmpty then pure s0
          else
            match (tget task "dependencies" (Val.list [])).iter? with
            | Option.none => Except.error "TypeError: object is not iterable"
            | some ds =>
              dfsRun m fuel (ds.map WItem.dep) (recStack ++ [t]) (path ++ [t]) s0
      dfsRun m fuel rest recStack path s1

/-- result record of `detect_circular_dependencies` -/
structure DetectResult where
  has_circular : Bool
  cycles : List (List Val)
  warnings : List String
deriving Repr

/-- fuel overapproximating the items one traversal can process -/
def detectFuel (tasks : List TaskRec) : ℕ :=
  2 * (tasks.map (fun t =>
    match (tget t "dependencies" (Val.list [])).iter? with
    | some ds => ds.length
    | Option.none => 0)).sum + 2 * tasks.length + 4

/-- `detect_circular_dependencies(tasks)` (lines 264-330) -/
def detect_circular_dependencies (tasks : List TaskRec) :
    Except String DetectResult := do
  let m ← buildTaskMap tasks
  let s ← tasks.foldlM (fun s task =>
      match tget? task "title" with
      | Option.none => Except.error "KeyError: 'title'"
      | some t =>
        if s.visited.any (fun x => pyEq x t) then pure s
        else dfsRun m (detectFuel tasks) [WItem.node t] [] [] s)
    { visited := [], cycles := [], warnings := [] }
  pure { has_circular := decide (s.cycles.length > 0),
         cycles := s.cycles, warnings := s.warnings }

/-!  Heap model for the frame property of `calculate_priority`: Python
task records are mutable dicts passed by reference.  A heap is a list
of records addressed by index; `sanitized = task.copy()` allocates a
fresh cell at the end of the heap and every subsequent write of
`sanitize_task_data` goes to that fresh cell. -/

abbrev Heap := List TaskRec

/-- dereference a record -/
def hget (h : Heap) (r : ℕ) : TaskRec := h.getD r []

/-- `sanitize_task_data` as heap steps: `sanitized = task.copy()`
allocates a fresh cell at the end of the heap, and each of the five
numbered field updates of lines 214-257 is a read-modify-write of that
fresh cell (cell `nr`); the caller's cell `r` is never written. -/
def sanitize_task_dataH (h : Heap) (r : ℕ) : Heap × ℕ :=
  let nr := h.length
  let h := h ++ [hget h r]
  let h := h.set nr (sanTitle (hget h nr))
  let h := h.set nr (sanDue (hget h nr))
  let h := h.set nr (sanHours (hget h nr))
  let h := h.set nr (sanImportance (hget h nr))
  let h := h.set nr (sanDeps (hget h nr))
  (h, nr)

/-- `calculate_priority` on the heap: rebinds the local `task` to the
sanitized copy and computes the score from it; the strategy functions
only read. -/
def calculate_priorityH (today : ℤ) (h : Heap) (r : ℕ) (strategy : String)
    (custom_weights : Option (List (String × ℚ))) : Heap × Except String ℚ :=
  let p := sanitize_task_dataH h r
  let task := hget p.1 p.2
  (p.1,
    if strategy = "fastest_wins" then calculate_fastest_wins today task
    else if strategy = "high_impact" then calculate_high_impact today task
    else if strategy = "deadline_driven" then calculate_deadline_driven today task
    else calculate_smart_balance today task custom_weights)

/-- the list-level core of `pyStrip` -/
def stripList (l : List Char) : List Char :=
  ((l.dropWhile Char.isWhitespace).reverse.dropWhile Char.isWhitespace).reverse

/-- a recorded cycle: non-empty, first element `==`-equal to its last -/
def cycleOk (c : List Val) : Prop :=
  c ≠ [] ∧ ∃ a b, c.head? = some a ∧ c.getLast? = some b ∧ pyEq a b = true

/-- invariant of the detector state: one warning per cycle, and every
cycle has the closed-loop shape -/
def detectInv (s : DetectSt) : Prop :=
  s.warnings.length = s.cycles.length ∧ ∀ c ∈ s.cycles, cycleOk c

/-!  Record-operation lemmas -/

theorem tget?_tset_self (t : TaskRec) (k : String) (v : Val) :
    tget? (tset t k v) k = some v := by
  induction t with
  | nil => simp [tset, tget?]
  | cons p rest ih =>
    obtain ⟨a, b⟩ := p
    by_cases h : a = k <;> simp [tset, tget?, h, ih]

theorem tget?_tset_ne (t : TaskRec) (k k' : String) (v : Val) (h : k' ≠ k) :
    tget? (tset t k v) k' = tget? t k' := by
  induction t with
  | nil => simp [tset, tget?, Ne.symm h]
  | cons p rest ih =>
    obtain ⟨a, b⟩ := p
    by_cases ha : a = k
    · subst ha
      simp [tset, tget?, Ne.symm h]
    · by_cases ha' : a = k' <;> simp [tset, tget?, h, ha, ha', ih]

theorem tget_tset_self (t : TaskRec) (k : String) (v d : Val) :
    tget (tset t k v) k d = v := by
  simp [tget, tget?_tset_self]

theorem tget_tset_ne (t : TaskRec) (k k' : String) (v d : Val) (h : k' ≠ k) :
    tget (tset t k v) k' d = tget t k' d := by
  simp [tget, tget?_tset_ne t k k' v h]

/-!  `pyStrip` lemmas -/

theorem dropWhile_dropWhile (p : Char → Bool) (l : List Char) :
    (l.dropWhile p).dropWhile p = l.dropWhile p := by
  induction l with
  | nil => simp
  | cons c cs ih =>
    by_cases h : p c <;> simp [List.dropWhile, h, ih]

theorem head?_dropWhile_false (p : Char → Bool) (l : List Char) (a : Char)
    (h : (l.dropWhile p).head? = some a) : p a = false := by
  induction l with
  | nil => simp at h
  | cons c cs ih =>
    by_cases hc : p c
    · exact ih (by simpa [List.dropWhile, hc] using h)
    · simp [List.dropWhile, hc] at h
      subst h
      simpa using hc

theorem dropWhile_eq_self_of_head (p : Char → Bool) (l : List Char)
    (h : ∀ a, l.head? = some a → p a = false) : l.dropWhile p = l := by
  cases l with
  | nil => simp
  | cons c cs => simp [List.dropWhile, h c rfl]

theorem pyStrip_data (s : String) : (pyStrip s).data = stripList s.data := rfl

theorem stripList_idem (l : List Char) : stripList (stripList l) = stripList l := by
  have hA : l.dropWhile Char.isWhitespace = stripList l ++
      ((l.dropWhile Char.isWhitespace).reverse.takeWhile Char.isWhitespace).reverse := by
    have base := List.takeWhile_append_dropWhile (p := Char.isWhitespace)
      (l := (l.dropWhile Char.isWhitespace).reverse)
    have h2 : (((l.dropWhile Char.isWhitespace).reverse.takeWhile Char.isWhitespace) ++
        ((l.dropWhile Char.isWhitespace).reverse.dropWhile Char.isWhitespace)).reverse
        = l.dropWhile Char.isWhitespace := by rw [base]; simp
    conv_lhs => rw [← h2, List.reverse_append]
    rfl
  have hdrop : (stripList l).dropWhile Char.isWhitespace = stripList l := by
    apply dropWhile_eq_self_of_head
    intro a ha
    apply head?_dropWhile_false Char.isWhitespace l a
    rw [hA]
    cases hm : stripList l with
    | nil => rw [hm] at ha; simp at ha
    | cons m ms =>
      rw [hm] at ha
      simp at ha
      simp [ha]
  show ((((stripList l).dropWhile Char.isWhitespace).reverse).dropWhile
      Char.isWhitespace).reverse = stripList l
  rw [hdrop]
  have : (stripList l).reverse =
      (l.dropWhile Char.isWhitespace).reverse.dropWhile Char.isWhitespace := by
    simp [stripList]
  rw [this, dropWhile_dropWhile]
  simp [stripList]

theorem pyStrip_idem (s : String) : pyStrip (pyStrip s) = pyStrip s := by
  have h1 : pyStrip (pyStrip s) = ⟨stripList (stripList s.data)⟩ := rfl
  have h2 : pyStrip s = ⟨stripList s.data⟩ := rfl
  rw [h1, h2, stripList_idem]

/-!  `pyEq` lemmas -/

theorem pyEqListAux_refl_of (xs : List Val) (h : ∀ x ∈ xs, pyEq x x = true) :
    pyEqAux.pyEqListAux xs xs = true := by
  induction xs with
  | nil => simp [pyEqAux.pyEqListAux]
  | cons x rest ih =>
    simp only [pyEqAux.pyEqListAux, Bool.and_eq_true]
    refine ⟨?_, ih (fun y hy => h y (List.mem_cons_of_mem x hy))⟩
    rcases hx : x.toNum? with _ | q
    · have := h x (List.mem_cons_self x rest)
      simpa [pyEq, hx] using this
    · simp [hx]

theorem pyEq_refl (v : Val) : pyEq v v = true := by
  have key : ∀ (n : ℕ) (v : Val), sizeOf v ≤ n → pyEq v v = true := by
    intro n
    induction n with
    | zero =>
      intro v hv
      exfalso
      cases v <;> simp_arith at hv
    | succ n ih =>
      intro v hv
      cases v with
      | list xs =>
        have hx : ∀ x ∈ xs, pyEq x x = true := by
          intro x hmem
          apply ih
          have h1 := List.sizeOf_lt_of_mem hmem
          have h2 : sizeOf (Val.list xs) = 1 + sizeOf xs := by simp
          omega
        simpa [pyEq, Val.toNum?, pyEqAux] using pyEqListAux_refl_of xs hx
      | none => simp [pyEq, Val.toNum?, pyEqAux]
      | bool b => simp [pyEq, Val.toNum?, pyEqAux]
      | int k => simp [pyEq, Val.toNum?, pyEqAux]
      | float q => simp [pyEq, Val.toNum?, pyEqAux]
      | str s => simp [pyEq, Val.toNum?, pyEqAux]
      | date d => simp [pyEq, Val.toNum?, pyEqAux]
  exact key (sizeOf v) v le_rfl

theorem pyEq_num (a b : Val) (x y : ℚ) (ha : a.toNum? = some x)
    (hb : b.toNum? = some y) : pyEq a b = decide (x = y) := by
  simp [pyEq, ha, hb]

/-!  Shapes of the sanitized fields.  Each step only writes its own
key, so the final record's fields are characterised step by step. -/

theorem tget?_sanTitle_ne (t : TaskRec) (k : String) (h : k ≠ "title") :
    tget? (sanTitle t) k = tget? t k := by
  unfold sanTitle
  split
  · exact tget?_tset_ne t "title" k _ h
  · rfl

theorem tget?_sanDue_ne (t : TaskRec) (k : String) (h : k ≠ "due_date") :
    tget? (sanDue t) k = tget? t k := by
  unfold sanDue
  split
  · rfl
  · rfl
  · exact tget?_tset_ne t "due_date" k _ h

theorem tget?_sanHours_ne (t : TaskRec) (k : String) (h : k ≠ "estimated_hours") :
    tget? (sanHours t) k = tget? t k := by
  unfold sanHours
  split
  · exact tget?_tset_ne t "estimated_hours" k _ h
  · exact tget?_tset_ne t "estimated_hours" k _ h

theorem tget?_sanImportance_ne (t : TaskRec) (k : String) (h : k ≠ "importance") :
    tget? (sanImportance t) k = tget? t k := by
  unfold sanImportance
  split
  · exact tget?_tset_ne t "importance" k _ h
  · exact tget?_tset_ne t "importance" k _ h

theorem tget?_sanDeps_ne (t : TaskRec) (k : String) (h : k ≠ "dependencies") :
    tget? (sanDeps t) k = tget? t k := by
  unfold sanDeps
  split
  · exact tget?_tset_ne t "dependencies" k _ h
  · exact tget?_tset_ne t "dependencies" k _ h

theorem sanitize_title_replaced (t : TaskRec) (h : titleBlank t = true) :
    tgetO (sanitize_task_data t) "title" = Val.str "Untitled Task" := by
  unfold sanitize_task_data tgetO tget
  rw [tget?_sanDeps_ne _ _ (by decide), tget?_sanImportance_ne _ _ (by decide),
    tget?_sanHours_ne _ _ (by decide), tget?_sanDue_ne _ _ (by decide)]
  unfold sanTitle
  rw [if_pos h, tget?_tset_self]
  rfl

theorem sanitize_title_kept (t : TaskRec) (h : titleBlank t = false) :
    tgetO (sanitize_task_data t) "title" = tgetO t "title" := by
  unfold sanitize_task_data tgetO tget
  rw [tget?_sanDeps_ne _ _ (by decide), tget?_sanImportance_ne _ _ (by decide),
    tget?_sanHours_ne _ _ (by decide), tget?_sanDue_ne _ _ (by decide)]
  unfold sanTitle
  rw [if_neg (by simp [h])]

theorem sanDue_shape (t : TaskRec) :
    tgetO (sanDue t) "due_date" = Val.none ∨
    ∃ d, tgetO (sanDue t) "due_date" = Val.date d := by
  unfold sanDue
  split
  · left; assumption
  · right; exact ⟨_, by assumption⟩
  · left; simp [tgetO, tget, tget?_tset_self]

theorem sanitize_due_shape (t : TaskRec) :
    tgetO (sanitize_task_data t) "due_date" = Val.none ∨
    ∃ d, tgetO (sanitize_task_data t) "due_date" = Val.date d := by
  unfold sanitize_task_data
  have e : tgetO (sanDeps (sanImportance (sanHours (sanDue (sanTitle t)))))
      "due_date" = tgetO (sanDue (sanTitle t)) "due_date" := by
    unfold tgetO tget
    rw [tget?_sanDeps_ne _ _ (by decide), tget?_sanImportance_ne _ _ (by decide),
      tget?_sanHours_ne _ _ (by decide)]
  rw [e]
  exact sanDue_shape (sanTitle t)

theorem sanHours_shape (t : TaskRec) :
    tget (sanHours t) "estimated_hours" (Val.int 0) = Val.int 0 ∨
    ∃ q : ℚ, 0 ≤ q ∧
      tget (sanHours t) "estimated_hours" (Val.int 0) = Val.float q := by
  unfold sanHours
  split
  · rename_i q hq
    by_cases hneg : q < 0
    · left; simp [hneg, tget_tset_self]
    · right
      exact ⟨q, le_of_not_lt hneg, by simp [hneg, tget_tset_self]⟩
  · left; simp [tget_tset_self]

theorem sanitize_hours_shape (t : TaskRec) :
    tget (sanitize_task_data t) "estimated_hours" (Val.int 0) = Val.int 0 ∨
    ∃ q : ℚ, 0 ≤ q ∧
      tget (sanitize_task_data t) "estimated_hours" (Val.int 0) = Val.float q := by
  unfold sanitize_task_data
  have e : tget (sanDeps (sanImportance (sanHours (sanDue (sanTitle t)))))
      "estimated_hours" (Val.int 0) =
      tget (sanHours (sanDue (sanTitle t))) "estimated_hours" (Val.int 0) := by
    unfold tget
    rw [tget?_sanDeps_ne _ _ (by decide), tget?_sanImportance_ne _ _ (by decide)]
  rw [e]
  exact sanHours_shape (sanDue (sanTitle t))

theorem sanImportance_shape (t : TaskRec) :
    ∃ i : ℤ, 1 ≤ i ∧ i ≤ 10 ∧
      tget (sanImportance t) "importance" (Val.int 5) = Val.int i := by
  unfold sanImportance
  split
  · rename_i j hj
    refine ⟨max 1 (min 10 j), le_max_left _ _, ?_, by simp [tget_tset_self]⟩
    exact max_le (by norm_num) (min_le_left _ _)
  · exact ⟨5, by norm_num, by norm_num, by simp [tget_tset_self]⟩

theorem sanitize_importance_shape (t : TaskRec) :
    ∃ i : ℤ, 1 ≤ i ∧ i ≤ 10 ∧
      tget (sanitize_task_data t) "importance" (Val.int 5) = Val.int i := by
  unfold sanitize_task_data
  have e : tget (sanDeps (sanImportance (sanHours (sanDue (sanTitle t)))))
      "importance" (Val.int 5) =
      tget (sanImportance (sanHours (sanDue (sanTitle t)))) "importance"
        (Val.int 5) := by
    unfold tget
    rw [tget?_sanDeps_ne _ _ (by decide)]
  rw [e]
  exact sanImportance_shape (sanHours (sanDue (sanTitle t)))

theorem sanitize_deps_shape (t : TaskRec) :
    ∃ ss : List String,
      tget (sanitize_task_data t) "dependencies" (Val.list []) =
        Val.list (ss.map Val.str) ∧
      ∀ s ∈ ss, pyStrip s = s ∧ s ≠ "" := by
  unfold sanitize_task_data sanDeps
  split
  · rename_i ds hds
    refine ⟨(ds.filter (fun d => d.truthy && pyStrip d.toStr != "")).map
      (fun d => pyStrip d.toStr), ?_, ?_⟩
    · simp [tget_tset_self, List.map_map, Function.comp]
    · intro s hs
      simp only [List.mem_map, List.mem_filter] at hs
      obtain ⟨d, ⟨_, hd⟩, rfl⟩ := hs
      refine ⟨pyStrip_idem _, ?_⟩
      simpa using (Bool.and_eq_true _ _ |>.mp hd).2
  · exact ⟨[], by simp [tget_tset_self], by simp⟩

/-!  Totality of the scoring pipeline on sanitized records -/

theorem exceptIsOk_iff {α : Type} (e : Except String α) :
    e.isOk = true ↔ ∃ v, e = Except.ok v := by
  cases e <;> simp [Except.isOk, Except.toBool]

theorem urgency_sanitized_ok (today : ℤ) (t : TaskRec) :
    (calculate_urgency_score today (sanitize_task_data t)).isOk = true := by
  rcases sanitize_due_shape t with h | ⟨d, h⟩ <;>
    unfold calculate_urgency_score <;> rw [h]
  · rfl
  · dsimp only
    repeat' split
    all_goals rfl

theorem effort_sanitized_ok (t : TaskRec) :
    (calculate_effort_score (sanitize_task_data t)).isOk = true := by
  rcases sanitize_hours_shape t with h | ⟨q, hq, h⟩ <;>
    unfold calculate_effort_score <;> rw [h] <;> dsimp only
  · rw [if_pos (by simp [pyEq, Val.toNum?])]
    rfl
  · by_cases h0 : q = 0
    · rw [if_pos (by simp [pyEq, Val.toNum?, h0])]
      rfl
    · rw [if_neg (by simp [pyEq, Val.toNum?, h0])]
      dsimp only [Val.toNum?]
      repeat' split
      all_goals rfl

theorem dependency_sanitized_ok (t : TaskRec) :
    (calculate_dependency_score (sanitize_task_data t)).isOk = true := by
  obtain ⟨ss, h, -⟩ := sanitize_deps_shape t
  unfold calculate_dependency_score
  rw [h]
  simp only [pyLen]
  repeat' split
  all_goals rfl

theorem asNum_sanitized_ok (t : TaskRec) :
    (asNum (tget (sanitize_task_data t) "importance" (Val.int 5))).isOk = true := by
  obtain ⟨i, -, -, h⟩ := sanitize_importance_shape t
  rw [h]
  rfl

theorem smart_sanitized_ok (today : ℤ) (t : TaskRec)
    (w : Option (List (String × ℚ))) :
    (calculate_smart_balance today (sanitize_task_data t) w).isOk = true := by
  obtain ⟨u, hu⟩ := (exceptIsOk_iff _).mp (urgency_sanitized_ok today t)
  obtain ⟨e, he⟩ := (exceptIsOk_iff _).mp (effort_sanitized_ok t)
  obtain ⟨d, hd⟩ := (exceptIsOk_iff _).mp (dependency_sanitized_ok t)
  obtain ⟨i, hi⟩ := (exceptIsOk_iff _).mp (asNum_sanitized_ok t)
  unfold calculate_smart_balance
  simp [hu, he, hd, hi, Except.isOk, Except.toBool, bind, Except.bind, pure, Except.pure]

theorem fastest_sanitized_ok (today : ℤ) (t : TaskRec) :
    (calculate_fastest_wins today (sanitize_task_data t)).isOk = true := by
  obtain ⟨u, hu⟩ := (exceptIsOk_iff _).mp (urgency_sanitized_ok today t)
  obtain ⟨e, he⟩ := (exceptIsOk_iff _).mp (effort_sanitized_ok t)
  obtain ⟨i, hi⟩ := (exceptIsOk_iff _).mp (asNum_sanitized_ok t)
  unfold calculate_fastest_wins
  simp [hu, he, hi, Except.isOk, Except.toBool, bind, Except.bind, pure, Except.pure]

theorem high_sanitized_ok (today : ℤ) (t : TaskRec) :
    (calculate_high_impact today (sanitize_task_data t)).isOk = true := by
  obtain ⟨u, hu⟩ := (exceptIsOk_iff _).mp (urgency_sanitized_ok today t)
  obtain ⟨d, hd⟩ := (exceptIsOk_iff _).mp (dependency_sanitized_ok t)
  obtain ⟨i, hi⟩ := (exceptIsOk_iff _).mp (asNum_sanitized_ok t)
  unfold calculate_high_impact
  simp [hu, hd, hi, Except.isOk, Except.toBool, bind, Except.bind, pure, Except.pure]

theorem deadline_sanitized_ok (today : ℤ) (t : TaskRec) :
    (calculate_deadline_driven today (sanitize_task_data t)).isOk = true := by
  obtain ⟨u, hu⟩ := (exceptIsOk_iff _).mp (urgency_sanitized_ok today t)
  obtain ⟨e, he⟩ := (exceptIsOk_iff _).mp (effort_sanitized_ok t)
  obtain ⟨i, hi⟩ := (exceptIsOk_iff _).mp (asNum_sanitized_ok t)
  unfold calculate_deadline_driven
  simp [hu, he, hi, Except.isOk, Except.toBool, bind, Except.bind, pure, Except.pure]

theorem priority_ok (today : ℤ) (t : TaskRec) (strategy : String)
    (w : Option (List (String × ℚ))) :
    (calculate_priority today t strategy w).isOk = true := by
  unfold calculate_priority
  split
  · exact fastest_sanitized_ok today t
  · split
    · exact high_sanitized_ok today t
    · split
      · exact deadline_sanitized_ok today t
      · exact smart_sanitized_ok today t w

/-!  Bounds of the component scorers -/

theorem urgency_bounds (today : ℤ) (t : TaskRec) (v : ℚ)
    (h : calculate_urgency_score today t = Except.ok v) : 0 ≤ v ∧ v ≤ 10 := by
  unfold calculate_urgency_score at h
  split at h
  · simp only [pure, Except.pure, Except.ok.injEq] at h
    subst h; norm_num
  · rename_i d heq
    dsimp only at h
    repeat' split at h
    all_goals simp only [pure, Except.pure, Except.ok.injEq] at h
    all_goals subst h
    case _ => norm_num
    case _ =>
      constructor
      · apply le_min (by norm_num)
        have : (0:ℚ) ≤ ((|d - today| : ℤ) : ℚ) := by positivity
        nlinarith
      · exact min_le_left _ _
    all_goals norm_num
  · exact absurd h (by simp)

theorem effort_bounds (t : TaskRec) (v : ℚ)
    (h : calculate_effort_score t = Except.ok v) : 0 ≤ v ∧ v ≤ 10 := by
  unfold calculate_effort_score at h
  dsimp only at h
  repeat' split at h
  all_goals first
    | exact absurd h (by simp)
    | (simp only [pure, Except.pure, Except.ok.injEq] at h; subst h; norm_num)

theorem dependency_bounds (t : TaskRec) (v : ℚ)
    (h : calculate_dependency_score t = Except.ok v) : 0 ≤ v ∧ v ≤ 10 := by
  unfold calculate_dependency_score at h
  repeat' split at h
  all_goals first
    | exact absurd h (by simp)
    | (simp only [pure, Except.pure, Except.ok.injEq] at h; subst h; norm_num)

/-!  Sortedness and stability of the score sort -/

theorem mem_insertByScore (t x : TaskRec) (l : List TaskRec) :
    x ∈ insertByScore t l ↔ x = t ∨ x ∈ l := by
  induction l with
  | nil => simp [insertByScore]
  | cons u us ih =>
    by_cases h : scoreKey u ≤ scoreKey t <;>
      simp [insertByScore, h, ih] <;> tauto

theorem pairwise_insertByScore (t : TaskRec) (l : List TaskRec)
    (hl : l.Pairwise (fun a b => scoreKey b ≤ scoreKey a)) :
    (insertByScore t l).Pairwise (fun a b => scoreKey b ≤ scoreKey a) := by
  induction l with
  | nil => simp [insertByScore]
  | cons u us ih =>
    rw [List.pairwise_cons] at hl
    obtain ⟨hu, hus⟩ := hl
    by_cases h : scoreKey u ≤ scoreKey t
    · rw [insertByScore, if_pos h, List.pairwise_cons]
      refine ⟨?_, by rw [List.pairwise_cons]; exact ⟨hu, hus⟩⟩
      intro b hb
      rcases List.mem_cons.mp hb with rfl | hb
      · exact h
      · exact le_trans (hu b hb) h
    · rw [insertByScore, if_neg h, List.pairwise_cons]
      refine ⟨?_, ih hus⟩
      intro b hb
      rcases (mem_insertByScore t b us).mp hb with rfl | hb
      · exact le_of_lt (lt_of_not_le h)
      · exact hu b hb

theorem sorted_sortByScoreDesc (l : List TaskRec) :
    (sortByScoreDesc l).Pairwise (fun a b => scoreKey b ≤ scoreKey a) := by
  induction l with
  | nil => simp [sortByScoreDesc]
  | cons a l ih => exact pairwise_insertByScore a _ ih

theorem filter_insertByScore (t : TaskRec) (l : List TaskRec) (q : ℚ) :
    (insertByScore t l).filter (fun u => decide (scoreKey u = q)) =
      if scoreKey t = q then
        t :: l.filter (fun u => decide (scoreKey u = q))
      else l.filter (fun u => decide (scoreKey u = q)) := by
  induction l with
  | nil =>
    by_cases h : scoreKey t = q <;> simp [insertByScore, List.filter, h]
  | cons u us ih =>
    by_cases h : scoreKey u ≤ scoreKey t
    · rw [insertByScore, if_pos h]
      by_cases htq : scoreKey t = q <;>
        by_cases huq : scoreKey u = q <;>
        simp [List.filter_cons, htq, huq]
    · have hut : scoreKey t < scoreKey u := lt_of_not_le h
      rw [insertByScore, if_neg h]
      by_cases huq : scoreKey u = q
      · have htq : ¬ scoreKey t = q := by
          intro e
          rw [e, huq] at hut
          exact lt_irrefl q hut
        simp [List.filter_cons, huq, htq, ih]
      · by_cases htq : scoreKey t = q <;>
          simp [List.filter_cons, huq, htq, ih]

theorem filter_sortByScoreDesc (l : List TaskRec) (q : ℚ) :
    (sortByScoreDesc l).filter (fun u => decide (scoreKey u = q)) =
      l.filter (fun u => decide (scoreKey u = q)) := by
  induction l with
  | nil => rfl
  | cons a l ih =>
    rw [sortByScoreDesc, filter_insertByScore, ih]
    by_cases ha : scoreKey a = q <;> simp [List.filter_cons, ha]

/-!  Internal consistency of the cycle detector -/

theorem findIdx?_some_spec {α : Type} (p : α → Bool) (l : List α) (i : ℕ)
    (h : List.findIdx? p l = some i) : ∃ a, l[i]? = some a ∧ p a = true := by
  rw [List.findIdx?_eq_some_iff_findIdx_eq] at h
  obtain ⟨hlt, hfi⟩ := h
  refine ⟨l[i], by simp [List.getElem?_eq_getElem hlt], ?_⟩
  subst hfi
  exact List.findIdx_getElem (w := hlt)

theorem cycleOk_of_findIdx (path : List Val) (t : Val) (i : ℕ)
    (h : List.findIdx? (fun x => pyEq x t) path = some i) :
    cycleOk (path.drop i ++ [t]) := by
  obtain ⟨a, ha, hpa⟩ := findIdx?_some_spec _ path i h
  have hdrop : (path.drop i).head? = some a := by
    rw [List.head?_drop]
    exact ha
  constructor
  · intro hc
    have := congrArg List.length hc
    simp at this
  · refine ⟨a, t, ?_, by simp, by simpa using hpa⟩
    cases hd : path.drop i with
    | nil => rw [hd] at hdrop; simp at hdrop
    | cons x xs =>
      rw [hd] at hdrop
      simp at hdrop
      simp [hd, hdrop]

theorem dfsRun_inv (m : TaskMap) :
    ∀ (fuel : ℕ) (items : List WItem) (recStack path : List Val)
      (s s' : DetectSt), dfsRun m fuel items recStack path s = Except.ok s' →
      detectInv s → detectInv s' := by
  intro fuel
  induction fuel with
  | zero =>
    intro items recStack path s s' h hs
    cases items with
    | nil =>
      simp only [dfsRun, pure, Except.pure, Except.ok.injEq] at h
      exact h ▸ hs
    | cons it rest => exact absurd h (by simp [dfsRun])
  | succ fuel ih =>
    intro items recStack path s s' h hs
    cases items with
    | nil =>
      simp only [dfsRun, pure, Except.pure, Except.ok.injEq] at h
      exact h ▸ hs
    | cons it rest =>
      cases it with
      | dep d =>
        rw [dfsRun] at h
        split at h
        · exact absurd h (by simp)
        · split at h
          · exact ih _ _ _ _ _ h hs
          · exact ih _ _ _ _ _ h hs
      | node t =>
        rw [dfsRun] at h
        split at h
        · -- title already on the recursion stack: record a cycle
          split at h
          · exact absurd h (by simp)
          · rename_i i hidx
            dsimp only at h
            cases hw : mkWarning (path.drop i ++ [t]) with
            | error e => rw [hw] at h; exact absurd h (by simp [bind, Except.bind])
            | ok w =>
              rw [hw] at h
              simp only [bind, Except.bind] at h
              refine ih _ _ _ _ _ h ⟨?_, ?_⟩
              · simp [hs.1]
              · intro c hc
                rcases List.mem_append.mp hc with hc | hc
                · exact hs.2 c hc
                · rw [List.mem_singleton] at hc
                  subst hc
                  exact cycleOk_of_findIdx path t i hidx
        · -- already globally visited
          split at h
          · exact ih _ _ _ _ _ h hs
          · -- fresh node: expand its dependencies, then the siblings
            rename_i hrec hvis
            cases hg : mapGet? m t with
            | none =>
              rw [hg] at h
              simp only [bind, Except.bind, pure, Except.pure] at h
              exact ih _ _ _ _ _ h hs
            | some task =>
              rw [hg] at h
              dsimp only at h
              by_cases he : task.isEmpty
              · rw [if_pos he] at h
                simp only [bind, Except.bind, pure, Except.pure] at h
                exact ih _ _ _ _ _ h hs
              · rw [if_neg he] at h
                cases hit : (tget task "dependencies" (Val.list [])).iter? with
                | none =>
                  rw [hit] at h
                  exact absurd h (by simp [bind, Except.bind])
                | some ds =>
                  rw [hit] at h
                  simp only [bind, Except.bind] at h
                  cases hrec1 : dfsRun m fuel (ds.map WItem.dep)
                      (recStack ++ [t]) (path ++ [t])
                      { s with visited := s.visited ++ [t] } with
                  | error e => rw [hrec1] at h; exact absurd h (by simp)
                  | ok s1 =>
                    rw [hrec1] at h
                    have hs1 : detectInv s1 :=
                      ih _ _ _ _ _ hrec1 ⟨hs.1, hs.2⟩
                    exact ih _ _ _ _ _ h hs1

/-!  Heap lemmas: the sanitizer writes only to the freshly copied cell -/

theorem hget_append_new (h : Heap) (t : TaskRec) : hget (h ++ [t]) h.length = t := by
  simp [hget, List.getD]

theorem set_append_len (h : Heap) (x y : TaskRec) :
    (h ++ [x]).set h.length y = h ++ [y] := by
  induction h with
  | nil => rfl
  | cons a rest ih => simp [List.set, ih]

theorem hget_append_lt (h : Heap) (t : TaskRec) (i : ℕ) (hi : i < h.length) :
    hget (h ++ [t]) i = hget h i := by
  rw [hget, hget, List.getD, List.getD, List.get?_append hi]

theorem sanitizeH_spec (h : Heap) (r : ℕ) :
    sanitize_task_dataH h r = (h ++ [sanitize_task_data (hget h r)], h.length) := by
  unfold sanitize_task_dataH sanitize_task_data
  dsimp only
  simp only [hget_append_new, set_append_len]

/-!  Stability of sanitized values under re-sanitization (for
idempotence): each field of a sanitized record re-sanitizes to a
`==`-equal value. -/

theorem titleBlank_congr (t1 t2 : TaskRec)
    (h : tgetO t1 "title" = tgetO t2 "title") : titleBlank t1 = titleBlank t2 := by
  unfold titleBlank
  rw [h]

theorem sanitize_hours_stable_float (t : TaskRec) (q : ℚ) (hq : ¬ q < 0)
    (h : tget t "estimated_hours" (Val.int 0) = Val.float q) :
    tget (sanitize_task_data t) "estimated_hours" (Val.int 0) = Val.float q := by
  unfold sanitize_task_data
  have e : tget (sanDeps (sanImportance (sanHours (sanDue (sanTitle t)))))
      "estimated_hours" (Val.int 0) =
      tget (sanHours (sanDue (sanTitle t))) "estimated_hours" (Val.int 0) := by
    unfold tget
    rw [tget?_sanDeps_ne _ _ (by decide), tget?_sanImportance_ne _ _ (by decide)]
  have e2 : tget (sanDue (sanTitle t)) "estimated_hours" (Val.int 0) =
      Val.float q := by
    unfold tget at h ⊢
    rw [tget?_sanDue_ne _ _ (by decide), tget?_sanTitle_ne _ _ (by decide)]
    exact h
  rw [e]
  unfold sanHours
  rw [e2]
  dsimp only [Val.toFloat?]
  rw [if_neg hq, tget_tset_self]

theorem sanitize_hours_stable_zero (t : TaskRec)
    (h : tget t "estimated_hours" (Val.int 0) = Val.int 0) :
    tget (sanitize_task_data t) "estimated_hours" (Val.int 0) = Val.float 0 := by
  unfold sanitize_task_data
  have e : tget (sanDeps (sanImportance (sanHours (sanDue (sanTitle t)))))
      "estimated_hours" (Val.int 0) =
      tget (sanHours (sanDue (sanTitle t))) "estimated_hours" (Val.int 0) := by
    unfold tget
    rw [tget?_sanDeps_ne _ _ (by decide), tget?_sanImportance_ne _ _ (by decide)]
  have e2 : tget (sanDue (sanTitle t)) "estimated_hours" (Val.int 0) =
      Val.int 0 := by
    unfold tget at h ⊢
    rw [tget?_sanDue_ne _ _ (by decide), tget?_sanTitle_ne _ _ (by decide)]
    exact h
  rw [e]
  unfold sanHours
  rw [e2]
  dsimp only [Val.toFloat?]
  rw [if_neg (by norm_num), tget_tset_self]
  norm_num

theorem sanitize_importance_stable (t : TaskRec) (i : ℤ) (h1 : 1 ≤ i)
    (h2 : i ≤ 10) (h : tget t "importance" (Val.int 5) = Val.int i) :
    tget (sanitize_task_data t) "importance" (Val.int 5) = Val.int i := by
  unfold sanitize_task_data
  have e : tget (sanDeps (sanImportance (sanHours (sanDue (sanTitle t)))))
      "importance" (Val.int 5) =
      tget (sanImportance (sanHours (sanDue (sanTitle t)))) "importance"
        (Val.int 5) := by
    unfold tget
    rw [tget?_sanDeps_ne _ _ (by decide)]
  have e2 : tget (sanHours (sanDue (sanTitle t))) "importance" (Val.int 5) =
      Val.int i := by
    unfold tget at h ⊢
    rw [tget?_sanHours_ne _ _ (by decide), tget?_sanDue_ne _ _ (by decide),
      tget?_sanTitle_ne _ _ (by decide)]
    exact h
  rw [e]
  unfold sanImportance
  rw [e2]
  dsimp only [Val.toInt?]
  rw [tget_tset_self]
  congr 1
  omega

theorem sanitize_deps_stable (t : TaskRec) (ss : List String)
    (hss : ∀ s ∈ ss, pyStrip s = s ∧ s ≠ "")
    (h : tget t "dependencies" (Val.list []) = Val.list (ss.map Val.str)) :
    tget (sanitize_task_data t) "dependencies" (Val.list []) =
      Val.list (ss.map Val.str) := by
  unfold sanitize_task_data
  have e2 : tget (sanImportance (sanHours (sanDue (sanTitle t))))
      "dependencies" (Val.list []) = Val.list (ss.map Val.str) := by
    unfold tget at h ⊢
    rw [tget?_sanImportance_ne _ _ (by decide), tget?_sanHours_ne _ _ (by decide),
      tget?_sanDue_ne _ _ (by decide), tget?_sanTitle_ne _ _ (by decide)]
    exact h
  unfold sanDeps
  rw [e2, tget_tset_self]
  congr 1
  have hfilter : (ss.map Val.str).filter
      (fun d => d.truthy && pyStrip d.toStr != "") = ss.map Val.str := by
    rw [List.filter_eq_self]
    intro v hv
    obtain ⟨s, hs, rfl⟩ := List.mem_map.mp hv
    obtain ⟨hstrip, hne⟩ := hss s hs
    simp [Val.truthy, Val.toStr, hstrip, hne]
  rw [hfilter, List.map_map]
  apply List.map_congr_left
  intro s hs
  obtain ⟨hstrip, -⟩ := hss s hs
  simp [Val.toStr, Function.comp, hstrip]

theorem sanitize_due_stable (t : TaskRec) (v : Val)
    (hv : v = Val.none ∨ ∃ d, v = Val.date d)
    (h : tgetO t "due_date" = v) :
    tgetO (sanitize_task_data t) "due_date" = v := by
  unfold sanitize_task_data
  have e : tgetO (sanDeps (sanImportance (sanHours (sanDue (sanTitle t)))))
      "due_date" = tgetO (sanDue (sanTitle t)) "due_date" := by
    unfold tgetO tget
    rw [tget?_sanDeps_ne _ _ (by decide), tget?_sanImportance_ne _ _ (by decide),
      tget?_sanHours_ne _ _ (by decide)]
  have e2 : tgetO (sanTitle t) "due_date" = v := by
    unfold tgetO tget at h ⊢
    rw [tget?_sanTitle_ne _ _ (by decide)]
    exact h
  rw [e]
  unfold sanDue
  rcases hv with rfl | ⟨d, rfl⟩
  · rw [e2]
    exact e2
  · rw [e2]
    exact e2

/-!  Claim theorems -/

/-- Claim C1, counterexample: `detect_circular_dependencies` does not
sanitize and subscripts `task["title"]` directly, so on the
mapping-shaped input `[{}]` it raises `KeyError` instead of returning —
the claim that the three core operations never raise is false. -/
theorem C1_counterexample :
    detect_circular_dependencies [[]] = Except.error "KeyError: 'title'" := rfl

/-- Claim C1 (amended): over mapping-shaped records (in the modelled
value universe, which excludes IEEE inf/nan), `calculate_priority` —
and with it `sanitize_task_data`, which is a total function by
construction — never raises for any strategy and weights; but
`detect_circular_dependencies`'s missing-title failure is reachable:
it raises `KeyError` on a record without a `"title"` key. -/
theorem C1_priority_total_detect_not :
    (∀ (today : ℤ) (t : TaskRec) (strategy : String)
        (w : Option (List (String × ℚ))),
      ∃ v, calculate_priority today t strategy w = Except.ok v) ∧
    detect_circular_dependencies [[("importance", Val.int 3)]] =
      Except.error "KeyError: 'title'" := by
  constructor
  · intro today t strategy w
    exact (exceptIsOk_iff _).mp (priority_ok today t strategy w)
  · rfl

/-- Claim C2, counterexample: a task with `estimated_hours = 0` gets
effort score 5.0, not 10.0, so "at most 1 (including 0) gives 10.0" is
false. -/
theorem C2_counterexample :
    calculate_effort_score [("estimated_hours", Val.int 0)] = Except.ok 5 ∧
    (Except.ok (5 : ℚ) : Except String ℚ) ≠ Except.ok (10 : ℚ) := by
  exact ⟨rfl, by simp⟩

/-- Claim C2 (amended): for a numeric `estimated_hours` value `q`,
the effort score is 10.0 when `0 ≠ q ≤ 1`, and 5.0 when `q = 0`
(unknown effort). -/
theorem C2_effort_at_most_one_hour :
    ∀ (t : TaskRec) (q : ℚ),
      (tget t "estimated_hours" (Val.int 0)).toNum? = some q →
      (q = 0 → calculate_effort_score t = Except.ok 5) ∧
      (q ≠ 0 → q ≤ 1 → calculate_effort_score t = Except.ok 10) := by
  intro t q hq
  constructor
  · intro h0
    have hcond : pyEq (tget t "estimated_hours" (Val.int 0)) (Val.int 0) =
        true := by
      rw [pyEq_num _ (Val.int 0) q 0 hq (by norm_num [Val.toNum?])]
      simp [h0]
    unfold calculate_effort_score
    dsimp only
    rw [if_pos hcond]
    rfl
  · intro h0 h1
    have hcond : ¬ pyEq (tget t "estimated_hours" (Val.int 0)) (Val.int 0) =
        true := by
      rw [pyEq_num _ (Val.int 0) q 0 hq (by norm_num [Val.toNum?])]
      simp [h0]
    unfold calculate_effort_score
    dsimp only
    rw [if_neg hcond, hq]
    dsimp only
    rw [if_pos h1]
    rfl

/-- Claim C2, witness at `estimated_hours = 1`. -/
theorem C2_witness :
    calculate_effort_score [("estimated_hours", Val.int 1)] = Except.ok 10 :=
  (C2_effort_at_most_one_hour [("estimated_hours", Val.int 1)] 1
    (by norm_num [tget, tget?, Val.toNum?])).2 (by norm_num) (by norm_num)

/-- Claim C3, counterexample: a title with surrounding whitespace is
kept verbatim — `sanitize_task_data` does not trim it. -/
theorem C3_counterexample :
    tgetO (sanitize_task_data [("title", Val.str " A ")]) "title" =
      Val.str " A " ∧ Val.str " A " ≠ Val.str "A" := by
  exact ⟨rfl, by simp⟩

/-- Claim C3 (amended): if the title is missing, falsy, or blank after
stripping, the sanitized title is `"Untitled Task"`; otherwise the
title value is kept unchanged (in particular it is not trimmed). -/
theorem C3_title_sanitization :
    ∀ t : TaskRec,
      (titleBlank t = true →
        tgetO (sanitize_task_data t) "title" = Val.str "Untitled Task") ∧
      (titleBlank t = false →
        tgetO (sanitize_task_data t) "title" = tgetO t "title") :=
  fun t => ⟨sanitize_title_replaced t, sanitize_title_kept t⟩

/-- Claim C3, witness: a missing title becomes `"Untitled Task"` and a
kept title is returned unchanged. -/
theorem C3_witness :
    tgetO (sanitize_task_data []) "title" = Val.str "Untitled Task" ∧
    tgetO (sanitize_task_data [("title", Val.str "hello")]) "title" =
      tgetO [("title", Val.str "hello")] "title" :=
  ⟨(C3_title_sanitization []).1 (by decide),
   (C3_title_sanitization [("title", Val.str "hello")]).2 (by decide)⟩

/-- Claim C4: whenever the `analyze_tasks` scoring pipeline
(`score_tasks`) returns, its output is sorted non-increasingly by the
`"score"` field, and for every score value the tasks carrying it
appear in the same relative order as in the scored input sequence
(stability). -/
theorem C4_sorted_stable :
    ∀ (today : ℤ) (tasks : List TaskRec) (strategy : String)
      (w : Option (List (String × ℚ))) (out : List TaskRec),
      score_tasks today tasks strategy w = Except.ok out →
      out.Pairwise (fun a b => scoreKey b ≤ scoreKey a) ∧
      ∀ scored, tasks.mapM (scoreOne today strategy w) = Except.ok scored →
        ∀ q : ℚ, out.filter (fun u => decide (scoreKey u = q)) =
          scored.filter (fun u => decide (scoreKey u = q)) := by
  intro today tasks strategy w out h
  unfold score_tasks at h
  cases hm : tasks.mapM (scoreOne today strategy w) with
  | error e =>
    simp only [hm] at h
    exact absurd h (by simp [bind, Except.bind])
  | ok sc =>
    simp only [hm] at h
    simp only [bind, Except.bind, pure, Except.pure, Except.ok.injEq] at h
    subst h
    refine ⟨sorted_sortByScoreDesc sc, ?_⟩
    intro scored hsc q
    obtain rfl : sc = scored := Except.ok.inj hsc
    exact filter_sortByScoreDesc sc q

/-- Claim C4, witness at the empty task list. -/
theorem C4_witness :
    List.Pairwise (fun a b => scoreKey b ≤ scoreKey a) ([] : List TaskRec) ∧
    ∀ scored, ([] : List TaskRec).mapM
        (scoreOne 0 "smart_balance" Option.none) = Except.ok scored →
      ∀ q : ℚ, ([] : List TaskRec).filter (fun u => decide (scoreKey u = q)) =
        scored.filter (fun u => decide (scoreKey u = q)) :=
  C4_sorted_stable 0 [] "smart_balance" Option.none [] rfl

/-- Claim C5: on tasks A→[B], B→[C], C→[A] the detector reports
`has_circular = true` with exactly the one cycle `["A","B","C","A"]`
(and the corresponding single warning). -/
theorem C5_three_task_cycle :
    detect_circular_dependencies
      [[("title", Val.str "A"), ("dependencies", Val.list [Val.str "B"])],
       [("title", Val.str "B"), ("dependencies", Val.list [Val.str "C"])],
       [("title", Val.str "C"), ("dependencies", Val.list [Val.str "A"])]] =
    Except.ok
      { has_circular := true,
        cycles := [[Val.str "A", Val.str "B", Val.str "C", Val.str "A"]],
        warnings :=
          ["‚ö†Ô∏è Circular dependency detected: A ‚Üí B ‚Üí C ‚Üí A"] } := rfl

/-- Claim C6: any strategy name other than the three named ones routes
to `smart_balance`; with default weights the scores coincide exactly. -/
theorem C6_unknown_strategy_fallback :
    ∀ (today : ℤ) (t : TaskRec) (strategy : String),
      strategy ≠ "fastest_wins" → strategy ≠ "high_impact" →
      strategy ≠ "deadline_driven" →
      calculate_priority today t strategy Option.none =
        calculate_priority today t "smart_balance" Option.none := by
  intro today t s h1 h2 h3
  unfold calculate_priority
  rw [if_neg h1, if_neg h2, if_neg h3, if_neg (by decide), if_neg (by decide),
    if_neg (by decide)]

/-- Claim C6, witness at the unknown name `"foo"`. -/
theorem C6_witness :
    calculate_priority 0 [] "foo" Option.none =
      calculate_priority 0 [] "smart_balance" Option.none :=
  C6_unknown_strategy_fallback 0 [] "foo" (by decide) (by decide) (by decide)

/-- Claim C7: whatever value each of the three component scorers
returns lies in [0, 10]; in particular the overdue escalation
`min(10, 10 + 0.1·overdue_days)` is capped at 10. -/
theorem C7_component_bounds :
    ∀ (today : ℤ) (t : TaskRec),
      (∀ v, calculate_urgency_score today t = Except.ok v → 0 ≤ v ∧ v ≤ 10) ∧
      (∀ v, calculate_effort_score t = Except.ok v → 0 ≤ v ∧ v ≤ 10) ∧
      (∀ v, calculate_dependency_score t = Except.ok v → 0 ≤ v ∧ v ≤ 10) :=
  fun today t =>
    ⟨fun v h => urgency_bounds today t v h,
     fun v h => effort_bounds t v h,
     fun v h => dependency_bounds t v h⟩

/-- Claim C7, witness on the empty record (urgency 3, effort 5,
dependency 0). -/
theorem C7_witness :
    ((0:ℚ) ≤ 3 ∧ (3:ℚ) ≤ 10) ∧ ((0:ℚ) ≤ 5 ∧ (5:ℚ) ≤ 10) ∧
    ((0:ℚ) ≤ 0 ∧ (0:ℚ) ≤ 10) :=
  ⟨(C7_component_bounds 0 []).1 3 rfl,
   (C7_component_bounds 0 []).2.1 5 rfl,
   (C7_component_bounds 0 []).2.2 0 rfl⟩

/-- Claim C8: re-sanitizing a sanitized record is a no-op under Python
`==` on every field — title, due_date, estimated_hours, importance and
dependencies.  (`==`, not structural equality: a negative-hours input
sanitizes to the int `0` once and to the float `0.0` twice, which are
`==`-equal.) -/
theorem C8_sanitize_idempotent :
    ∀ t : TaskRec,
      pyEq (tgetO (sanitize_task_data (sanitize_task_data t)) "title")
        (tgetO (sanitize_task_data t) "title") = true ∧
      pyEq (tgetO (sanitize_task_data (sanitize_task_data t)) "due_date")
        (tgetO (sanitize_task_data t) "due_date") = true ∧
      pyEq (tget (sanitize_task_data (sanitize_task_data t))
          "estimated_hours" (Val.int 0))
        (tget (sanitize_task_data t) "estimated_hours" (Val.int 0)) = true ∧
      pyEq (tget (sanitize_task_data (sanitize_task_data t))
          "importance" (Val.int 5))
        (tget (sanitize_task_data t) "importance" (Val.int 5)) = true ∧
      pyEq (tget (sanitize_task_data (sanitize_task_data t))
          "dependencies" (Val.list []))
        (tget (sanitize_task_data t) "dependencies" (Val.list [])) = true := by
  intro t
  refine ⟨?_, ?_, ?_, ?_, ?_⟩
  · by_cases hb : titleBlank t = true
    · have h1 := sanitize_title_replaced t hb
      have hb2 : titleBlank (sanitize_task_data t) = false := by
        rw [titleBlank_congr _ [("title", Val.str "Untitled Task")]
          (by rw [h1]; rfl)]
        decide
      rw [sanitize_title_kept _ hb2]
      exact pyEq_refl _
    · have hbf : titleBlank t = false := by simpa using hb
      have h1 := sanitize_title_kept t hbf
      have hb2 : titleBlank (sanitize_task_data t) = false := by
        rw [titleBlank_congr _ t h1]
        exact hbf
      rw [sanitize_title_kept _ hb2]
      exact pyEq_refl _
  · rcases sanitize_due_shape t with h | ⟨d, h⟩
    · rw [sanitize_due_stable _ _ (Or.inl rfl) h, h]
      exact pyEq_refl _
    · rw [sanitize_due_stable _ _ (Or.inr ⟨d, rfl⟩) h, h]
      exact pyEq_refl _
  · rcases sanitize_hours_shape t with h | ⟨q, hq, h⟩
    · rw [sanitize_hours_stable_zero _ h, h]
      simp [pyEq, Val.toNum?]
    · rw [sanitize_hours_stable_float _ q (not_lt.mpr hq) h, h]
      exact pyEq_refl _
  · obtain ⟨i, h1, h2, h⟩ := sanitize_importance_shape t
    rw [sanitize_importance_stable _ i h1 h2 h, h]
    exact pyEq_refl _
  · obtain ⟨ss, h, hss⟩ := sanitize_deps_shape t
    rw [sanitize_deps_stable _ ss hss h, h]
    exact pyEq_refl _

/-- Claim C9: `calculate_priority` does not mutate the caller's record:
in the heap model the sanitizer writes only to the freshly allocated
copy, so every heap cell that existed before the call — in particular
the argument record at `r` — is unchanged afterwards. -/
theorem C9_priority_frame :
    ∀ (today : ℤ) (h : Heap) (r : ℕ) (strategy : String)
      (w : Option (List (String × ℚ))) (i : ℕ), i < h.length →
      hget (calculate_priorityH today h r strategy w).1 i = hget h i := by
  intro today h r strategy w i hi
  unfold calculate_priorityH
  dsimp only
  rw [sanitizeH_spec]
  exact hget_append_lt h _ i hi

/-- Claim C9, witness on a one-record heap. -/
theorem C9_witness :
    hget (calculate_priorityH 0 [[("title", Val.str "x")]] 0 "smart_balance"
      Option.none).1 0 = hget [[("title", Val.str "x")]] 0 :=
  C9_priority_frame 0 [[("title", Val.str "x")]] 0 "smart_balance"
    Option.none 0 (by decide)

theorem exceptBind_ok {α β : Type} (e : Except String α)
    (f : α → Except String β) (b : β) (h : (e >>= f) = Except.ok b) :
    ∃ a, e = Except.ok a ∧ f a = Except.ok b := by
  cases e with
  | error s => exact absurd h (by simp [bind, Except.bind])
  | ok a =>
    refine ⟨a, rfl, ?_⟩
    simpa [bind, Except.bind] using h

theorem foldlM_inv {σ : Type} (P : σ → Prop) (f : σ → TaskRec → Except String σ)
    (hf : ∀ s t s', f s t = Except.ok s' → P s → P s') :
    ∀ (l : List TaskRec) (s s' : σ), l.foldlM f s = Except.ok s' → P s → P s' := by
  intro l
  induction l with
  | nil =>
    intro s s' h hs
    simp only [List.foldlM, pure, Except.pure, Except.ok.injEq] at h
    exact h ▸ hs
  | cons a l ih =>
    intro s s' h hs
    rw [List.foldlM_cons] at h
    obtain ⟨s1, h1, h2⟩ := exceptBind_ok _ _ _ h
    exact ih s1 s' h2 (hf s a s1 h1 hs)

/-- Claim C10: whenever `detect_circular_dependencies` returns, the
result is internally consistent: `has_circular` holds iff the cycle
list is non-empty, there is exactly one warning per recorded cycle,
and every recorded cycle is a non-empty sequence whose first element
is `==`-equal to its last. -/
theorem C10_detect_consistent :
    ∀ (tasks : List TaskRec) (r : DetectResult),
      detect_circular_dependencies tasks = Except.ok r →
      (r.has_circular = true ↔ r.cycles ≠ []) ∧
      r.warnings.length = r.cycles.length ∧
      ∀ c ∈ r.cycles, c ≠ [] ∧ ∃ a b, c.head? = some a ∧ c.getLast? = some b ∧
        pyEq a b = true := by
  intro tasks r h
  unfold detect_circular_dependencies at h
  obtain ⟨m, hm, h⟩ := exceptBind_ok _ _ _ h
  obtain ⟨s, hs, h⟩ := exceptBind_ok _ _ _ h
  simp only [pure, Except.pure, Except.ok.injEq] at h
  subst h
  have hbody : ∀ (s : DetectSt) (task : TaskRec) (s' : DetectSt),
      (match tget? task "title" with
       | Option.none => Except.error "KeyError: 'title'"
       | some t =>
         if s.visited.any (fun x => pyEq x t) then pure s
         else dfsRun m (detectFuel tasks) [WItem.node t] [] [] s) =
        Except.ok s' → detectInv s → detectInv s' := by
    intro s1 task s1' hstep hinv1
    split at hstep
    · exact absurd hstep (by simp)
    · split at hstep
      · simp only [pure, Except.pure, Except.ok.injEq] at hstep
        exact hstep ▸ hinv1
      · exact dfsRun_inv m _ _ _ _ _ _ hstep hinv1
  have hinv : detectInv s :=
    foldlM_inv detectInv _ hbody tasks
      { visited := [], cycles := [], warnings := [] } s hs ⟨rfl, by simp⟩
  refine ⟨?_, hinv.1, ?_⟩
  · simp [decide_eq_true_eq, pos_iff_ne_zero, List.length_eq_zero]
  · intro c hc
    obtain ⟨hne, hshape⟩ := hinv.2 c hc
    exact ⟨hne, hshape⟩

/-- Claim C10, witness on a single acyclic task. -/
theorem C10_witness :
    ((DetectResult.has_circular
        { has_circular := false, cycles := [], warnings := [] } = true) ↔
      (DetectResult.cycles
        { has_circular := false, cycles := [], warnings := [] } ≠ [])) ∧
    (DetectResult.warnings
        { has_circular := false, cycles := [], warnings := [] }).length =
      (DetectResult.cycles
        { has_circular := false, cycles := [], warnings := [] }).length ∧
    ∀ c ∈ DetectResult.cycles
        { has_circular := false, cycles := [], warnings := [] },
      c ≠ [] ∧ ∃ a b, c.head? = some a ∧ c.getLast? = some b ∧
        pyEq a b = true :=
  C10_detect_consistent [[("title", Val.str "X")]]
    { has_circular := false, cycles := [], warnings := [] } rfl
